import Mathlib

/-!
Verification of `drone_updater/dfu_lib.py` (Nordic legacy DFU engine).

Shallow embedding: bytes are `Nat`, byte strings are `List Nat`, Python
strings are `List Char`.  Each definition below mirrors one function (or
one loop / call site) of `dfu_lib.py`; the doc comment names the source
location it embeds.
-/

namespace DfuLib

/-! ### Opcode constants (dfu_lib.py lines 19-29) -/

def OP_CODE_START_DFU : Nat := 0x01
def OP_CODE_INIT_DFU_PARAMS : Nat := 0x02
def OP_CODE_RECEIVE_FIRMWARE_IMAGE : Nat := 0x03
def OP_CODE_VALIDATE : Nat := 0x04
def OP_CODE_ACTIVATE_AND_RESET : Nat := 0x05
def OP_CODE_RESET : Nat := 0x06
def OP_CODE_PACKET_RECEIPT_NOTIF_REQ : Nat := 0x08
def OP_CODE_RESPONSE_CODE : Nat := 0x10
def OP_CODE_PACKET_RECEIPT_NOTIF : Nat := 0x11
def OP_CODE_ENTER_BOOTLOADER : Nat := 0x01
def UPLOAD_MODE_APPLICATION : Nat := 0x04

/-! ### `_stream_firmware` (dfu_lib.py lines 225-254)

The loop `for i in range(0, total_bytes, chunk_size)` slices
`bin_data[i : i + chunk_size]`, writes it to the data-packet channel,
increments `packets_since_prn`, and when `prn > 0` and
`packets_since_prn >= prn` it clears the receipt event, waits on it and
resets the counter to 0.  `stream_go` returns the list of chunks written
and the number of receipt waits performed.  Slicing at index `i` with step
`chunk_size` is the same as repeatedly taking `chunk_size` elements and
recursing on the rest, which is how the recursion below is phrased.
`range` raises `ValueError` on step 0; the `0` case below is a dead branch
(the negotiated chunk size `min(mtu_size - 3, 244)` is positive on any
real link, and every theorem assumes `1 ≤ chunkSize`). -/

def stream_go (prn chunkSize : Nat) (binData : List Nat) (packetsSincePrn : Nat) :
    List (List Nat) × Nat :=
  match binData, chunkSize with
  | [], _ => ([], 0)
  | _ :: _, 0 => ([], 0)
  | x :: xs, c + 1 =>
    let chunk := (x :: xs).take (c + 1)
    let counter := packetsSincePrn + 1
    if 0 < prn ∧ prn ≤ counter then
      let r := stream_go prn (c + 1) ((x :: xs).drop (c + 1)) 0
      (chunk :: r.1, r.2 + 1)
    else
      let r := stream_go prn (c + 1) ((x :: xs).drop (c + 1)) counter
      (chunk :: r.1, r.2)
termination_by binData.length
decreasing_by all_goals (simp only [List.length_drop, List.length_cons]; omega)

/-- `_stream_firmware` starts with `packets_since_prn = 0` (line 229). -/
def stream_firmware (prn chunkSize : Nat) (binData : List Nat) :
    List (List Nat) × Nat :=
  stream_go prn chunkSize binData 0

/-! ### `perform_update` retry loop (dfu_lib.py lines 143-223)

`perform_update` sets `self.reset_in_progress = False` (line 145) and runs
`for attempt in range(max_retries)` (line 147).  The body of one attempt
either reaches `return` (line 213, after the whole session succeeded), or
raises.  The flag `reset_in_progress` is set to `True` exactly once, on
line 210, immediately before the ACTIVATE_AND_RESET write; once it is set
the attempt can only end in `return` (line 213) or in the handler's
`return` (line 218), so the flag is always `False` when a new attempt
starts.  An attempt is therefore fully described by one of three
outcomes. -/

/-- Outcome of one `perform_update` attempt body, as seen by the
`except` handler on lines 215-223: the body returned normally, or it
raised while `reset_in_progress` was still `False` (any exception before
line 210), or it raised after `reset_in_progress` was set to `True`
(an exception from the ACTIVATE_AND_RESET write or later). -/
inductive AttemptOutcome where
  | success
  | raiseBeforeFlag
  | raiseAfterFlag
deriving DecidableEq

/-- Result of `perform_update`: which line ended the call, at which
attempt index (0-based, as in `range(max_retries)`), after how many
3-second backoff sleeps (line 221). -/
inductive UpdateResult where
  | completed (attempt sleeps : Nat)
  | completedViaReset (attempt sleeps : Nat)
  | raisedLastError (attempt sleeps : Nat)
  | fellThrough
deriving DecidableEq

/-- The `for attempt in range(max_retries)` loop of `perform_update`,
lines 147-223.  `remaining` is `max_retries - attempt`, so the Python
guard `attempt < max_retries - 1` (line 220) is `0 < remaining - 1`,
i.e. `0 < rem` after peeling one iteration.  On `success` the function
returns (line 213); on an exception with the reset flag set it returns
(lines 216-218); otherwise it sleeps 3 s and retries if attempts remain
(lines 220-221), else re-raises the error (line 223).  If the loop body
never runs (`max_retries = 0`) the function falls off the loop and
returns `None` (`fellThrough`). -/
def performUpdateGo (env : Nat → AttemptOutcome) :
    Nat → Nat → Nat → UpdateResult
  | 0, _, _ => .fellThrough
  | rem + 1, attempt, sleeps =>
    match env attempt with
    | .success => .completed attempt sleeps
    | .raiseAfterFlag => .completedViaReset attempt sleeps
    | .raiseBeforeFlag =>
      if 0 < rem then
        performUpdateGo env rem (attempt + 1) (sleeps + 1)
      else
        .raisedLastError attempt sleeps

/-- `perform_update(device, max_retries)`: run the attempt loop from
attempt 0 with no sleeps taken.  `env attempt` is the outcome the
transport and device produce for that attempt. -/
def perform_update (env : Nat → AttemptOutcome) (maxRetries : Nat) :
    UpdateResult :=
  performUpdateGo env maxRetries 0 0

/-- The fixed backoff between attempts, line 221 (`await asyncio.sleep(3.0)`). -/
def backoffSeconds : Nat := 3

/-- How many attempt bodies were started, recoverable from the result. -/
def attemptsUsed : UpdateResult → Nat
  | .completed a _ => a + 1
  | .completedViaReset a _ => a + 1
  | .raisedLastError a _ => a + 1
  | .fellThrough => 0

/-! ### `_wait_for_response` (dfu_lib.py lines 112-124)

The coroutine waits on the response queue with a timeout.  On timeout it
logs and returns `-1` (line 124).  On a dequeued pair
`(request_op, status)` it returns `-1` when the echoed opcode differs
from the expected one (line 116), the raw `status` when the status is not
1 (line 120), and `1` on success (line 121). -/

/-- What the awaited `asyncio.wait_for(self.response_queue.get(), timeout)`
produces: either a queued `(request_op, status)` pair or `TimeoutError`. -/
inductive WaitInput where
  | timeout
  | frame (requestOp status : Nat)
deriving DecidableEq

/-- `_wait_for_response(expected_op_code, timeout)`, result value only
(the timeout length does not influence which value is returned). -/
def wait_for_response (expectedOpCode : Nat) (input : WaitInput) : Int :=
  match input with
  | .timeout => -1
  | .frame requestOp status =>
    if requestOp ≠ expectedOpCode then -1
    else if status ≠ 1 then (status : Int)
    else 1

/-! ### Response-wait timeouts used by `perform_update`

`_wait_for_response` declares `timeout=30.0` as its default (line 112).
`perform_update` awaits four responses: START with an explicit
`timeout=60.0` (line 172), INIT with no explicit timeout (line 183),
RECEIVE_FIRMWARE_IMAGE with `max(60.0, len(bin_data) / 50000)`
(lines 199-200), and VALIDATE with no explicit timeout (line 205).
Timeout lengths are exact decimal literals and one exact division, so
they are modelled in `ℚ`. -/

def WAIT_FOR_RESPONSE_DEFAULT_TIMEOUT : ℚ := 30

/-- One response wait performed by `perform_update`: which opcode is
awaited and with which timeout (seconds). -/
structure WaitEvent where
  opcode : Nat
  timeout : ℚ
deriving DecidableEq

/-- The sequence of `_wait_for_response` calls made by one successful
pass through the `perform_update` attempt body, in program order
(lines 172, 183, 200, 205), as a function of the application image
size `len(self.bin_data)`. -/
def perform_update_wait_schedule (appSize : Nat) : List WaitEvent :=
  [⟨OP_CODE_START_DFU, 60⟩,
   ⟨OP_CODE_INIT_DFU_PARAMS, WAIT_FOR_RESPONSE_DEFAULT_TIMEOUT⟩,
   ⟨OP_CODE_RECEIVE_FIRMWARE_IMAGE, max 60 ((appSize : ℚ) / 50000)⟩,
   ⟨OP_CODE_VALIDATE, WAIT_FOR_RESPONSE_DEFAULT_TIMEOUT⟩]

/-! ### `parse_zip` manifest-less fallback (dfu_lib.py lines 84-94)

With no `manifest.json`, the code computes
`next((f for f in files if f.endswith('.bin') and 'application' in f.lower()), None)`
and likewise for `.dat`, then succeeds iff both are non-`None`
(a matching name is never the empty string, so Python truthiness of the
found names coincides with being non-`None`). -/

def binExt : List Char := ['.', 'b', 'i', 'n']
def datExt : List Char := ['.', 'd', 'a', 't']
def applicationMarker : List Char :=
  ['a', 'p', 'p', 'l', 'i', 'c', 'a', 't', 'i', 'o', 'n']

/-- `f.endswith('.bin') and 'application' in f.lower()` (line 87). -/
def isAppBin (f : List Char) : Bool :=
  binExt.isSuffixOf f && decide (applicationMarker <:+: f.map Char.toLower)

/-- `f.endswith('.dat') and 'application' in f.lower()` (line 88). -/
def isAppDat (f : List Char) : Bool :=
  datExt.isSuffixOf f && decide (applicationMarker <:+: f.map Char.toLower)

/-- Lines 87-94: `next(...)` is `List.find?`; success iff both files were
found, returning the pair of selected entry names (the subsequent
`z.read` calls read exactly these entries). `none` is the
`DfuException("Could not auto-detect firmware files in ZIP.")` path. -/
def parse_zip_fallback (files : List (List Char)) :
    Option (List Char × List Char) :=
  match files.find? isAppBin, files.find? isAppDat with
  | some binFile, some datFile => some (binFile, datFile)
  | _, _ => none

/-! ### `find_device_by_name_or_address` scan loop (dfu_lib.py lines 272-292)

The loop iterates over the scan results in discovery order.  For each
entry it checks address (uppercased) against the query (uppercased), then
the advertised name (`adv.local_name or d.name or ""`, Python `or`, so an
empty or missing name falls through) against the query, then — since
`target` is still `None` inside the loop body — whether the lowercased
hint UUID is among the lowercased advertised service UUIDs; the first
entry passing any check is returned.  An empty scan leaves `target =
None` and raises `DfuException("Device not found.")`, modelled as
`none`. -/

structure BLEDevice where
  address : List Char
  name : Option (List Char)
deriving DecidableEq

structure AdvertisementData where
  localName : Option (List Char)
  serviceUuids : List (List Char)
deriving DecidableEq

def toUpperStr (s : List Char) : List Char := s.map Char.toUpper
def toLowerStr (s : List Char) : List Char := s.map Char.toLower

/-- Python `a or b` on an optional string: `b` when `a` is `None` or
empty. -/
def pyStrOr (a : Option (List Char)) (b : List Char) : List Char :=
  match a with
  | some s => if s.isEmpty then b else s
  | none => b

/-- `adv_name = adv.local_name or d.name or ""` (line 281). -/
def advName (d : BLEDevice) (adv : AdvertisementData) : List Char :=
  pyStrOr adv.localName (pyStrOr d.name [])

/-- `service_uuid and service_uuid.lower() in [u.lower() for u in
adv.service_uuids]` (lines 285-286); a `None` or empty hint is falsy. -/
def uuidMatch (serviceUuid : Option (List Char))
    (adv : AdvertisementData) : Bool :=
  match serviceUuid with
  | none => false
  | some su =>
    if su.isEmpty then false
    else (adv.serviceUuids.map toLowerStr).contains (toLowerStr su)

/-- The `for key, (d, adv) in scanned_devices.items()` loop,
lines 277-287 (dict iteration order = discovery order, modelled as a
list). -/
def find_device_loop (query : List Char) (serviceUuid : Option (List Char)) :
    List (BLEDevice × AdvertisementData) → Option BLEDevice
  | [] => none
  | (d, adv) :: rest =>
    if toUpperStr d.address == toUpperStr query then some d
    else if advName d adv == query then some d
    else if uuidMatch serviceUuid adv then some d
    else find_device_loop query serviceUuid rest

/-- Helper: the per-entry disjunction of the three criteria checked by
one iteration of the loop. -/
def deviceEntryMatches (query : List Char) (serviceUuid : Option (List Char))
    (entry : BLEDevice × AdvertisementData) : Bool :=
  (toUpperStr entry.1.address == toUpperStr query)
    || (advName entry.1 entry.2 == query)
    || uuidMatch serviceUuid entry.2

/-! ### `jump_to_bootloader` (dfu_lib.py lines 126-141)

The whole connect/notify/write/disconnect sequence sits in an outer
`try` whose handler only logs (line 141); the control-point write has its
own inner `try: ... except Exception: pass` (lines 135-138).  A Python
function body is modelled as `PyResult`: `ok` for a normal return, `exn`
for an escaping exception. -/

inductive PyResult (α : Type) where
  | ok (a : α)
  | exn (msg : List Char)
deriving DecidableEq

/-- `try: body except Exception as e: handler(e)`. -/
def pyTry {α : Type} (body : PyResult α)
    (handler : List Char → PyResult α) : PyResult α :=
  match body with
  | .ok a => .ok a
  | .exn e => handler e

/-- Sequencing: run `a`; if it raised, the exception propagates,
otherwise continue with `b`. -/
def pySeq {α β : Type} (a : PyResult α) (b : PyResult β) : PyResult β :=
  match a with
  | .ok _ => b
  | .exn e => .exn e

/-- The four transport operations `jump_to_bootloader` performs and
whether each would succeed: `BleakClient` connect (context enter),
`start_notify`, the ENTER_BOOTLOADER `write_gatt_char`, and the context
exit (disconnect). -/
structure JumpTransport where
  connectOk : Bool
  notifyOk : Bool
  writeOk : Bool
  disconnectOk : Bool
deriving DecidableEq

/-- `jump_to_bootloader(device)`, lines 126-141. -/
def jump_to_bootloader (t : JumpTransport) : PyResult Unit :=
  pyTry
    (pySeq (if t.connectOk then .ok () else .exn ['c'])
      (pySeq (if t.notifyOk then .ok () else .exn ['n'])
        (pySeq
          (pyTry (if t.writeOk then .ok () else .exn ['w'])
            (fun _ => .ok ()))
          (if t.disconnectOk then .ok () else .exn ['d']))))
    (fun _ => .ok ())

/-! ### Response-queue drain at attempt start (dfu_lib.py line 155)

Each `perform_update` attempt, after subscribing notifications
(line 154) and before the first control-point write (line 159), runs
`while not self.response_queue.empty(): self.response_queue.get_nowait()`.
Queue entries are the `(request_op, status)` pairs put by the
notification handler (line 104). -/

def drain_response_queue : List (Nat × Nat) → List (Nat × Nat)
  | [] => []
  | _ :: rest => drain_response_queue rest

/-- The queue contents visible to the first `_wait_for_response` of an
attempt: whatever the drain left of the previous attempts' leftovers,
followed by the frames that arrive during this attempt. -/
def queue_at_first_command (leftover arrivals : List (Nat × Nat)) :
    List (Nat × Nat) :=
  drain_response_queue leftover ++ arrivals

/-- Helper: the pure chunk decomposition performed by the slicing in the
loop header, independent of the PRN bookkeeping. -/
def chunksOf (chunkSize : Nat) (binData : List Nat) : List (List Nat) :=
  match binData, chunkSize with
  | [], _ => []
  | _ :: _, 0 => []
  | x :: xs, c + 1 => (x :: xs).take (c + 1) :: chunksOf (c + 1) ((x :: xs).drop (c + 1))
termination_by binData.length
decreasing_by all_goals (simp only [List.length_drop, List.length_cons]; omega)

end DfuLib

namespace DfuLib

theorem stream_go_fst (prn c : Nat) (l : List Nat) :
    ∀ k, (stream_go prn c l k).1 = chunksOf c l := by
  induction c, l using chunksOf.induct with
  | case1 => intro k; simp [stream_go, chunksOf]
  | case2 => intro k; simp [stream_go, chunksOf]
  | case3 x xs c ih =>
    intro k
    simp only [List.drop_succ_cons] at ih
    rw [stream_go, chunksOf]
    split
    · simp [ih]
    · simp [ih]

theorem chunksOf_flatten (c : Nat) (l : List Nat) :
    1 ≤ c → (chunksOf c l).flatten = l := by
  induction c, l using chunksOf.induct with
  | case1 c => intro _; simp [chunksOf]
  | case2 x xs => intro hc; omega
  | case3 x xs c ih =>
    intro hc
    rw [chunksOf, List.flatten_cons, ih (by omega), List.take_append_drop]

theorem chunksOf_length (c : Nat) (l : List Nat) :
    1 ≤ c → (chunksOf c l).length = (l.length + c - 1) / c := by
  induction c, l using chunksOf.induct with
  | case1 c =>
    intro hc
    rw [chunksOf]
    simp only [List.length_nil]
    rw [Nat.div_eq_of_lt (by omega)]
  | case2 x xs => intro hc; omega
  | case3 x xs c ih =>
    intro hc
    rw [chunksOf]
    simp only [List.length_cons, List.length_drop] at ih ⊢
    rw [ih (by omega)]
    rcases Nat.lt_or_ge (xs.length + 1) (c + 1) with h | h
    · have h1 : (xs.length + 1 - (c + 1) + (c + 1) - 1) / (c + 1) = 0 :=
        Nat.div_eq_of_lt (by omega)
      have h2 : (xs.length + 1 + (c + 1) - 1) / (c + 1) = 1 :=
        Nat.div_eq_of_lt_le (by omega) (by omega)
      rw [h1, h2]
    · have h0 : xs.length + 1 + (c + 1) - 1 = (xs.length + 1 - (c + 1) + (c + 1) - 1) + (c + 1) := by
        omega
      rw [h0, Nat.add_div_right _ (by omega)]

theorem chunksOf_dropLast (c : Nat) (l : List Nat) :
    1 ≤ c → ∀ ch ∈ (chunksOf c l).dropLast, ch.length = c := by
  induction c, l using chunksOf.induct with
  | case1 c => intro _; simp [chunksOf]
  | case2 x xs => intro hc; omega
  | case3 x xs c ih =>
    intro hc
    rw [chunksOf]
    rcases le_or_lt (xs.length + 1) (c + 1) with h | h
    · have hdrop : (x :: xs).drop (c + 1) = [] := by
        apply List.drop_eq_nil_of_le
        simp only [List.length_cons]; omega
      rw [hdrop, chunksOf]
      simp
    · have hne : chunksOf (c + 1) ((x :: xs).drop (c + 1)) ≠ [] := by
        have hd : ((x :: xs).drop (c + 1)).length = xs.length - c := by
          simp only [List.length_drop, List.length_cons]; omega
        rcases hdd : (x :: xs).drop (c + 1) with _ | ⟨y, ys⟩
        · rw [hdd] at hd; simp at hd; omega
        · rw [chunksOf]; simp
      rw [List.dropLast_cons_of_ne_nil hne]
      intro ch hch
      rcases List.mem_cons.1 hch with rfl | hch
      · simp only [List.length_take, List.length_cons]; omega
      · exact ih (by omega) ch hch

theorem chunksOf_getLast (c : Nat) (l : List Nat) :
    1 ≤ c → l.length % c ≠ 0 →
    ((chunksOf c l).getLast?).map List.length = some (l.length % c) := by
  induction c, l using chunksOf.induct with
  | case1 c => intro _ hm; simp at hm
  | case2 x xs => intro hc; omega
  | case3 x xs c ih =>
    intro hc hm
    simp only [List.drop_succ_cons] at ih
    rw [chunksOf]
    simp only [List.drop_succ_cons]
    rcases le_or_lt (xs.length + 1) (c + 1) with h | h
    · have hlt : xs.length + 1 < c + 1 := by
        rcases Nat.lt_or_eq_of_le h with h' | h'
        · exact h'
        · exfalso
          apply hm
          have hl : (x :: xs).length = c + 1 := by
            simp only [List.length_cons]; omega
          rw [hl, Nat.mod_self]
      have hdrop : List.drop c xs = [] :=
        List.drop_eq_nil_of_le (by omega)
      rw [hdrop, chunksOf]
      simp only [List.getLast?_singleton, Option.map_some']
      rw [List.take_of_length_le (by simp only [List.length_cons]; omega)]
      have hmod : (x :: xs).length % (c + 1) = (x :: xs).length := by
        apply Nat.mod_eq_of_lt
        simp only [List.length_cons]; omega
      rw [hmod]
    · have hmod : (List.drop c xs).length % (c + 1) = (x :: xs).length % (c + 1) := by
        simp only [List.length_drop]
        conv_rhs => rw [show (x :: xs).length = (xs.length - c) + (c + 1) by
          simp only [List.length_cons]; omega]
        rw [Nat.add_mod_right]
      have hm' : (List.drop c xs).length % (c + 1) ≠ 0 := by
        rw [hmod]; exact hm
      have ihh := ih (by omega) hm'
      rw [hmod] at ihh
      rcases hres : chunksOf (c + 1) (List.drop c xs) with _ | ⟨ch, chs⟩
      · rw [hres] at ihh; simp at ihh
      · rw [hres] at ihh
        rw [List.getLast?_cons_cons]
        exact ihh

theorem stream_go_snd_zero (c : Nat) (l : List Nat) :
    ∀ k, (stream_go 0 c l k).2 = 0 := by
  induction c, l using chunksOf.induct with
  | case1 c => intro k; simp [stream_go]
  | case2 x xs => intro k; simp [stream_go]
  | case3 x xs c ih =>
    intro k
    simp only [List.drop_succ_cons] at ih
    rw [stream_go]
    simp only [Nat.lt_irrefl, false_and, if_false, List.drop_succ_cons]
    exact ih (k + 1)

theorem stream_go_snd (prn : Nat) (hprn : 0 < prn) (c : Nat) (l : List Nat) :
    ∀ k, k < prn → (stream_go prn c l k).2 = ((chunksOf c l).length + k) / prn := by
  induction c, l using chunksOf.induct with
  | case1 c =>
    intro k hk
    rw [stream_go, chunksOf]
    simp only [List.length_nil, Nat.zero_add]
    rw [Nat.div_eq_of_lt hk]
  | case2 x xs =>
    intro k hk
    rw [stream_go, chunksOf]
    simp only [List.length_nil, Nat.zero_add]
    rw [Nat.div_eq_of_lt hk]
  | case3 x xs c ih =>
    intro k hk
    simp only [List.drop_succ_cons] at ih
    rw [stream_go, chunksOf]
    simp only [List.length_cons, List.drop_succ_cons]
    split
    · rename_i hcond
      have hkp : k + 1 = prn := by omega
      rw [ih 0 hprn]
      have : (chunksOf (c + 1) (List.drop c xs)).length + 1 + k
          = (chunksOf (c + 1) (List.drop c xs)).length + prn := by omega
      rw [this, Nat.add_div_right _ hprn]
      simp
    · rename_i hcond
      have hk1 : k + 1 < prn := by omega
      rw [ih (k + 1) hk1]
      congr 1
      omega

/-- Claim C2: for `1 ≤ chunkSize ≤ 244`, the transfer loop of
`_stream_firmware` writes exactly `⌈L / chunkSize⌉` chunks
(`= (L + chunkSize - 1) / chunkSize` in natural division), every chunk
except possibly the last has length `chunkSize`, the last chunk has length
`L % chunkSize` when that is non-zero, and the concatenation of the chunks
is the original image. -/
theorem stream_chunks_correct (prn chunkSize : Nat) (binData : List Nat)
    (h1 : 1 ≤ chunkSize) (h2 : chunkSize ≤ 244) :
    ((stream_firmware prn chunkSize binData).1).length
        = (binData.length + chunkSize - 1) / chunkSize
    ∧ ((stream_firmware prn chunkSize binData).1).flatten = binData
    ∧ (∀ ch ∈ ((stream_firmware prn chunkSize binData).1).dropLast,
        ch.length = chunkSize)
    ∧ (binData.length % chunkSize ≠ 0 →
        (((stream_firmware prn chunkSize binData).1).getLast?).map List.length
          = some (binData.length % chunkSize)) := by
  unfold stream_firmware
  rw [stream_go_fst]
  exact ⟨chunksOf_length chunkSize binData h1,
    chunksOf_flatten chunkSize binData h1,
    chunksOf_dropLast chunkSize binData h1,
    chunksOf_getLast chunkSize binData h1⟩

theorem stream_chunks_correct_witness :
    ((stream_firmware 2 2 [1, 2, 3, 4, 5]).1).length = (5 + 2 - 1) / 2
    ∧ ((stream_firmware 2 2 [1, 2, 3, 4, 5]).1).flatten = [1, 2, 3, 4, 5]
    ∧ (∀ ch ∈ ((stream_firmware 2 2 [1, 2, 3, 4, 5]).1).dropLast, ch.length = 2)
    ∧ (([1, 2, 3, 4, 5].length : Nat) % 2 ≠ 0 →
        (((stream_firmware 2 2 [1, 2, 3, 4, 5]).1).getLast?).map List.length
          = some (([1, 2, 3, 4, 5].length : Nat) % 2)) :=
  stream_chunks_correct 2 2 [1, 2, 3, 4, 5] (by decide) (by decide)

/-- Claim C3: with `prn = 0` the streaming loop never waits on the packet
receipt event; with `prn = N > 0` it performs exactly `⌊k / N⌋` waits,
where `k` is the number of chunks sent. -/
theorem stream_prn_waits (chunkSize : Nat) (binData : List Nat)
    (h1 : 1 ≤ chunkSize) :
    (stream_firmware 0 chunkSize binData).2 = 0
    ∧ ∀ prn, 0 < prn →
        (stream_firmware prn chunkSize binData).2
          = ((stream_firmware prn chunkSize binData).1).length / prn := by
  constructor
  · exact stream_go_snd_zero chunkSize binData 0
  · intro prn hprn
    unfold stream_firmware
    rw [stream_go_fst, stream_go_snd prn hprn chunkSize binData 0 hprn,
      Nat.add_zero]

theorem stream_prn_waits_witness :
    (stream_firmware 0 2 [1, 2, 3, 4, 5]).2 = 0
    ∧ ∀ prn, 0 < prn →
        (stream_firmware prn 2 [1, 2, 3, 4, 5]).2
          = ((stream_firmware prn 2 [1, 2, 3, 4, 5]).1).length / prn :=
  stream_prn_waits 2 [1, 2, 3, 4, 5] (by decide)

theorem performUpdateGo_skip (env : Nat → AttemptOutcome) :
    ∀ k rem attempt sleeps,
      (∀ i, attempt ≤ i → i < attempt + k → env i = .raiseBeforeFlag) →
      performUpdateGo env (k + (rem + 1)) attempt sleeps
        = performUpdateGo env (rem + 1) (attempt + k) (sleeps + k) := by
  intro k
  induction k with
  | zero => intro rem attempt sleeps _; simp
  | succ k ihk =>
    intro rem attempt sleeps hfail
    have h0 : env attempt = .raiseBeforeFlag :=
      hfail attempt (le_refl _) (by omega)
    have e : k + 1 + (rem + 1) = (k + (rem + 1)) + 1 := by omega
    rw [e]
    have hstep : performUpdateGo env ((k + (rem + 1)) + 1) attempt sleeps
        = performUpdateGo env (k + (rem + 1)) (attempt + 1) (sleeps + 1) := by
      simp only [performUpdateGo, h0]
      rw [if_pos (by omega)]
    rw [hstep,
      ihk rem (attempt + 1) (sleeps + 1)
        (fun i h1 h2 => hfail i (by omega) (by omega))]
    have e1 : attempt + 1 + k = attempt + (k + 1) := by omega
    have e2 : sleeps + 1 + k = sleeps + (k + 1) := by omega
    rw [e1, e2]

theorem attemptsUsed_le_go (env : Nat → AttemptOutcome) :
    ∀ rem attempt sleeps,
      attemptsUsed (performUpdateGo env rem attempt sleeps) ≤ attempt + rem := by
  intro rem
  induction rem with
  | zero => intro attempt sleeps; simp [performUpdateGo, attemptsUsed]
  | succ rem ih =>
    intro attempt sleeps
    cases henv : env attempt with
    | success => simp [performUpdateGo, henv, attemptsUsed]
    | raiseAfterFlag => simp [performUpdateGo, henv, attemptsUsed]
    | raiseBeforeFlag =>
      simp only [performUpdateGo, henv]
      split
      · calc attemptsUsed (performUpdateGo env rem (attempt + 1) (sleeps + 1))
            ≤ (attempt + 1) + rem := ih _ _
          _ ≤ attempt + (rem + 1) := by omega
      · simp [attemptsUsed]

/-- Claim C1: in `perform_update`, an exception raised while
`reset_in_progress` is set (the flag is set on line 210, immediately
before the ACTIVATE_AND_RESET write) makes the call return success at
that same attempt, consuming no further retry; the identical exception
raised while the flag is unset fails the attempt: the loop moves on to
the next attempt when attempts remain (`a + 1 < m`), and propagates the
error when they do not (`a + 1 = m`). -/
theorem perform_update_reset_flag (env : Nat → AttemptOutcome) (m a : Nat)
    (ha : a < m) (hpre : ∀ i, i < a → env i = .raiseBeforeFlag) :
    (env a = .raiseAfterFlag →
        perform_update env m = .completedViaReset a a)
    ∧ (env a = .raiseBeforeFlag →
        (a + 1 < m →
          perform_update env m
            = performUpdateGo env (m - (a + 1)) (a + 1) (a + 1))
        ∧ (a + 1 = m → perform_update env m = .raisedLastError a a)) := by
  obtain ⟨r, hr⟩ : ∃ r, m = a + (r + 1) := ⟨m - a - 1, by omega⟩
  have hskip : perform_update env m = performUpdateGo env (r + 1) a a := by
    unfold perform_update
    rw [hr]
    have hs := performUpdateGo_skip env a r 0 0
      (fun i h1 h2 => hpre i (by omega))
    simpa using hs
  refine ⟨fun hflag => ?_, fun hfail => ⟨fun hlt => ?_, fun heq => ?_⟩⟩
  · rw [hskip]
    simp only [performUpdateGo, hflag]
  · have hrpos : 0 < r := by omega
    rw [hskip]
    simp only [performUpdateGo, hfail]
    rw [if_pos hrpos, show m - (a + 1) = r from by omega]
  · have hr0 : r = 0 := by omega
    rw [hskip]
    simp only [performUpdateGo, hfail, hr0]
    simp

theorem perform_update_reset_flag_witness :
    ((fun i => if i = 0 then AttemptOutcome.raiseBeforeFlag
        else AttemptOutcome.raiseAfterFlag) 1 = .raiseAfterFlag →
      perform_update (fun i => if i = 0 then AttemptOutcome.raiseBeforeFlag
        else AttemptOutcome.raiseAfterFlag) 3 = .completedViaReset 1 1)
    ∧ ((fun i => if i = 0 then AttemptOutcome.raiseBeforeFlag
        else AttemptOutcome.raiseAfterFlag) 1 = .raiseBeforeFlag →
        (1 + 1 < 3 →
          perform_update (fun i => if i = 0 then AttemptOutcome.raiseBeforeFlag
            else AttemptOutcome.raiseAfterFlag) 3
            = performUpdateGo (fun i => if i = 0 then AttemptOutcome.raiseBeforeFlag
                else AttemptOutcome.raiseAfterFlag) (3 - (1 + 1)) (1 + 1) (1 + 1))
        ∧ (1 + 1 = 3 →
          perform_update (fun i => if i = 0 then AttemptOutcome.raiseBeforeFlag
            else AttemptOutcome.raiseAfterFlag) 3 = .raisedLastError 1 1)) :=
  perform_update_reset_flag
    (fun i => if i = 0 then AttemptOutcome.raiseBeforeFlag
      else AttemptOutcome.raiseAfterFlag) 3 1 (by decide)
    (fun i hi => by interval_cases i <;> rfl)

/-- Claim C4: `perform_update` with `max_retries = m` starts at most `m`
attempt bodies; the 3-second backoff (`backoffSeconds`) is slept only
between consecutive attempts; when attempts `0 .. m-2` fail and attempt
`m-1` succeeds the call completes at attempt `m-1` after exactly `m - 1`
backoff sleeps; when all `m` attempts fail the last error is propagated,
again after exactly `m - 1` sleeps (none after the final attempt). -/
theorem perform_update_retry_policy (env : Nat → AttemptOutcome) (m : Nat)
    (hm : 1 ≤ m) :
    attemptsUsed (perform_update env m) ≤ m
    ∧ backoffSeconds = 3
    ∧ ((∀ i, i < m - 1 → env i = .raiseBeforeFlag) →
        env (m - 1) = .success →
        perform_update env m = .completed (m - 1) (m - 1))
    ∧ ((∀ i, i < m → env i = .raiseBeforeFlag) →
        perform_update env m = .raisedLastError (m - 1) (m - 1)) := by
  have hskip : ∀ (h : ∀ i, i < m - 1 → env i = .raiseBeforeFlag),
      perform_update env m = performUpdateGo env 1 (m - 1) (m - 1) := by
    intro h
    unfold perform_update
    rw [show m = (m - 1) + (0 + 1) from by omega]
    have hs := performUpdateGo_skip env (m - 1) 0 0 0
      (fun i h1 h2 => h i (by omega))
    simpa using hs
  refine ⟨?_, rfl, fun hpre hsucc => ?_, fun hall => ?_⟩
  · have := attemptsUsed_le_go env m 0 0
    simpa [perform_update] using this
  · rw [hskip hpre, show (1 : Nat) = 0 + 1 from rfl]
    simp only [performUpdateGo, hsucc]
  · rw [hskip (fun i hi => hall i (by omega)),
      show (1 : Nat) = 0 + 1 from rfl]
    simp only [performUpdateGo, hall (m - 1) (by omega)]
    simp

theorem perform_update_retry_policy_witness :
    attemptsUsed (perform_update
        (fun i => if i < 2 then AttemptOutcome.raiseBeforeFlag
          else AttemptOutcome.success) 3) ≤ 3
    ∧ backoffSeconds = 3
    ∧ ((∀ i, i < 3 - 1 →
          (fun i => if i < 2 then AttemptOutcome.raiseBeforeFlag
            else AttemptOutcome.success) i = .raiseBeforeFlag) →
        (fun i => if i < 2 then AttemptOutcome.raiseBeforeFlag
          else AttemptOutcome.success) (3 - 1) = .success →
        perform_update (fun i => if i < 2 then AttemptOutcome.raiseBeforeFlag
          else AttemptOutcome.success) 3 = .completed (3 - 1) (3 - 1))
    ∧ ((∀ i, i < 3 →
          (fun i => if i < 2 then AttemptOutcome.raiseBeforeFlag
            else AttemptOutcome.success) i = .raiseBeforeFlag) →
        perform_update (fun i => if i < 2 then AttemptOutcome.raiseBeforeFlag
          else AttemptOutcome.success) 3 = .raisedLastError (3 - 1) (3 - 1)) :=
  perform_update_retry_policy
    (fun i => if i < 2 then AttemptOutcome.raiseBeforeFlag
      else AttemptOutcome.success) 3 (by decide)

/-- Claim C5 counterexample: the result `_wait_for_response` produces for
a frame whose echoed opcode differs from the expected one (here a
VALIDATE echo while START_DFU is awaited) is the very same value, `-1`,
that it produces for a timeout — the two outcomes are not
distinguishable, contrary to the claim. -/
theorem wait_for_response_wrong_op_eq_timeout :
    wait_for_response OP_CODE_START_DFU
        (WaitInput.frame OP_CODE_VALIDATE 1)
      = wait_for_response OP_CODE_START_DFU WaitInput.timeout := by
  decide

/-- Claim C5 (amended): the command-response wait has three mutually
distinguishable result classes — success (`1`), a non-success device
status (returned verbatim; being a byte it is never `1` here and never
`-1`), and `-1`, which covers both a wrong echoed opcode and a timeout;
wrong opcode and timeout yield the identical result. -/
theorem wait_for_response_outcomes (expectedOpCode requestOp status : Nat) :
    wait_for_response expectedOpCode WaitInput.timeout = -1
    ∧ (requestOp ≠ expectedOpCode →
        wait_for_response expectedOpCode (WaitInput.frame requestOp status)
          = -1)
    ∧ (requestOp = expectedOpCode → status = 1 →
        wait_for_response expectedOpCode (WaitInput.frame requestOp status)
          = 1)
    ∧ (requestOp = expectedOpCode → status ≠ 1 →
        wait_for_response expectedOpCode (WaitInput.frame requestOp status)
          = (status : Int)
        ∧ (status : Int) ≠ -1 ∧ (status : Int) ≠ 1) := by
  refine ⟨rfl, fun hne => ?_, fun heq h1 => ?_, fun heq h1 => ⟨?_, ?_, ?_⟩⟩
  · simp [wait_for_response, hne]
  · simp [wait_for_response, heq, h1]
  · simp [wait_for_response, heq, h1]
  · omega
  · omega

theorem wait_for_response_outcomes_witness :
    wait_for_response 1 WaitInput.timeout = -1
    ∧ ((4 : Nat) ≠ 1 → wait_for_response 1 (WaitInput.frame 4 2) = -1)
    ∧ ((4 : Nat) = 1 → (2 : Nat) = 1 →
        wait_for_response 1 (WaitInput.frame 4 2) = 1)
    ∧ ((4 : Nat) = 1 → (2 : Nat) ≠ 1 →
        wait_for_response 1 (WaitInput.frame 4 2) = ((2 : Nat) : Int)
        ∧ ((2 : Nat) : Int) ≠ -1 ∧ ((2 : Nat) : Int) ≠ 1) :=
  wait_for_response_outcomes 1 4 2

/-- Claim C6 counterexample: the wait for the START response uses a
60-second timeout (line 172), not 30 as claimed, and the init-packet and
validate waits use the 30-second default (lines 183, 205), not 60. -/
theorem perform_update_timeouts_cex :
    (perform_update_wait_schedule 0).map WaitEvent.timeout
        = [60, 30, 60, 30]
    ∧ (60 : ℚ) ≠ 30 := by
  constructor
  · norm_num [perform_update_wait_schedule, WAIT_FOR_RESPONSE_DEFAULT_TIMEOUT]
  · norm_num

/-- Claim C6 (amended): for every image size, the START-response wait of
`perform_update` uses a 60-second timeout, while the init-packet and
validate waits use `_wait_for_response`'s 30-second default. -/
theorem perform_update_timeouts (appSize : Nat) :
    ∀ ev ∈ perform_update_wait_schedule appSize,
      (ev.opcode = OP_CODE_START_DFU → ev.timeout = 60)
      ∧ (ev.opcode = OP_CODE_INIT_DFU_PARAMS →
          ev.timeout = WAIT_FOR_RESPONSE_DEFAULT_TIMEOUT)
      ∧ (ev.opcode = OP_CODE_VALIDATE →
          ev.timeout = WAIT_FOR_RESPONSE_DEFAULT_TIMEOUT)
      ∧ WAIT_FOR_RESPONSE_DEFAULT_TIMEOUT = 30 := by
  intro ev hev
  simp only [perform_update_wait_schedule, List.mem_cons,
    List.not_mem_nil, or_false] at hev
  rcases hev with rfl | rfl | rfl | rfl
  · exact ⟨fun _ => rfl, fun h => absurd h (by decide),
      fun h => absurd h (by decide), rfl⟩
  · exact ⟨fun h => absurd h (by decide), fun _ => rfl,
      fun h => absurd h (by decide), rfl⟩
  · refine ⟨fun h => ?_, fun h => ?_, fun h => ?_, rfl⟩ <;>
      simp [OP_CODE_RECEIVE_FIRMWARE_IMAGE, OP_CODE_START_DFU,
        OP_CODE_INIT_DFU_PARAMS, OP_CODE_VALIDATE] at h
  · exact ⟨fun h => absurd h (by decide), fun h => absurd h (by decide),
      fun _ => rfl, rfl⟩

theorem perform_update_timeouts_witness :
    ((⟨OP_CODE_START_DFU, 60⟩ : WaitEvent).opcode = OP_CODE_START_DFU →
        (⟨OP_CODE_START_DFU, 60⟩ : WaitEvent).timeout = 60)
    ∧ ((⟨OP_CODE_START_DFU, 60⟩ : WaitEvent).opcode = OP_CODE_INIT_DFU_PARAMS →
        (⟨OP_CODE_START_DFU, 60⟩ : WaitEvent).timeout
          = WAIT_FOR_RESPONSE_DEFAULT_TIMEOUT)
    ∧ ((⟨OP_CODE_START_DFU, 60⟩ : WaitEvent).opcode = OP_CODE_VALIDATE →
        (⟨OP_CODE_START_DFU, 60⟩ : WaitEvent).timeout
          = WAIT_FOR_RESPONSE_DEFAULT_TIMEOUT)
    ∧ WAIT_FOR_RESPONSE_DEFAULT_TIMEOUT = 30 :=
  perform_update_timeouts 0 ⟨OP_CODE_START_DFU, 60⟩ (by decide)

/-- Claim C7 counterexample: an archive listing with TWO entries matching
the `.bin`/application pattern does not fail as ambiguous — the fallback
succeeds and silently picks the first candidate. -/
theorem parse_zip_fallback_ambiguous_cex :
    parse_zip_fallback
        [['a', 'p', 'p', 'l', 'i', 'c', 'a', 't', 'i', 'o', 'n',
          '1', '.', 'b', 'i', 'n'],
         ['a', 'p', 'p', 'l', 'i', 'c', 'a', 't', 'i', 'o', 'n',
          '2', '.', 'b', 'i', 'n'],
         ['a', 'p', 'p', 'l', 'i', 'c', 'a', 't', 'i', 'o', 'n',
          '.', 'd', 'a', 't']]
      = some (['a', 'p', 'p', 'l', 'i', 'c', 'a', 't', 'i', 'o', 'n',
               '1', '.', 'b', 'i', 'n'],
              ['a', 'p', 'p', 'l', 'i', 'c', 'a', 't', 'i', 'o', 'n',
               '.', 'd', 'a', 't']) := by
  decide

/-- Claim C7 (amended): the manifest-less fallback succeeds exactly when
at least one entry matches the `.bin`/application pattern and at least
one matches the `.dat`/application pattern; it fails (unrecognized
layout) only when either pattern has no match, and on success it returns
the first matching entry of each pattern in archive order — ambiguity is
not detected. -/
theorem parse_zip_fallback_first_match (files : List (List Char)) :
    ((parse_zip_fallback files).isSome ↔
      ((∃ f ∈ files, isAppBin f) ∧ (∃ f ∈ files, isAppDat f)))
    ∧ ∀ binFile datFile,
        parse_zip_fallback files = some (binFile, datFile) →
          (isAppBin binFile
            ∧ ∃ pre suf, files = pre ++ binFile :: suf
                ∧ ∀ f ∈ pre, isAppBin f = false)
          ∧ (isAppDat datFile
            ∧ ∃ pre suf, files = pre ++ datFile :: suf
                ∧ ∀ f ∈ pre, isAppDat f = false) := by
  constructor
  · unfold parse_zip_fallback
    rcases hb : files.find? isAppBin with _ | b
    · rcases hd : files.find? isAppDat with _ | d
      · simp only [Option.isSome_none, Bool.false_eq_true, false_iff]
        rintro ⟨⟨f, hf, hpf⟩, -⟩
        exact absurd hpf (by simpa using List.find?_eq_none.mp hb f hf)
      · simp only [Option.isSome_none, Bool.false_eq_true, false_iff]
        rintro ⟨⟨f, hf, hpf⟩, -⟩
        exact absurd hpf (by simpa using List.find?_eq_none.mp hb f hf)
    · rcases hd : files.find? isAppDat with _ | d
      · simp only [Option.isSome_none, Bool.false_eq_true, false_iff]
        rintro ⟨-, ⟨f, hf, hpf⟩⟩
        exact absurd hpf (by simpa using List.find?_eq_none.mp hd f hf)
      · simp only [Option.isSome_some, true_iff]
        exact ⟨⟨b, List.mem_of_find?_eq_some hb, List.find?_some hb⟩,
          ⟨d, List.mem_of_find?_eq_some hd, List.find?_some hd⟩⟩
  · intro binFile datFile heq
    unfold parse_zip_fallback at heq
    rcases hb : files.find? isAppBin with _ | b <;> rw [hb] at heq
    · simp at heq
    · rcases hd : files.find? isAppDat with _ | d <;> rw [hd] at heq
      · simp at heq
      · simp only [Option.some.injEq, Prod.mk.injEq] at heq
        obtain ⟨rfl, rfl⟩ := heq
        obtain ⟨hpb, as1, bs1, hsplit1, hpre1⟩ := List.find?_eq_some.mp hb
        obtain ⟨hpd, as2, bs2, hsplit2, hpre2⟩ := List.find?_eq_some.mp hd
        refine ⟨⟨hpb, as1, bs1, hsplit1, fun f hf => ?_⟩,
          ⟨hpd, as2, bs2, hsplit2, fun f hf => ?_⟩⟩
        · simpa using hpre1 f hf
        · simpa using hpre2 f hf

theorem parse_zip_fallback_first_match_witness :
    ((parse_zip_fallback
        [['a', 'p', 'p', '.', 'b', 'i', 'n'],
         ['a', 'p', 'p', 'l', 'i', 'c', 'a', 't', 'i', 'o', 'n',
          '.', 'b', 'i', 'n'],
         ['a', 'p', 'p', 'l', 'i', 'c', 'a', 't', 'i', 'o', 'n',
          '.', 'd', 'a', 't']]).isSome ↔
      ((∃ f ∈ [['a', 'p', 'p', '.', 'b', 'i', 'n'],
         ['a', 'p', 'p', 'l', 'i', 'c', 'a', 't', 'i', 'o', 'n',
          '.', 'b', 'i', 'n'],
         ['a', 'p', 'p', 'l', 'i', 'c', 'a', 't', 'i', 'o', 'n',
          '.', 'd', 'a', 't']], isAppBin f)
        ∧ (∃ f ∈ [['a', 'p', 'p', '.', 'b', 'i', 'n'],
         ['a', 'p', 'p', 'l', 'i', 'c', 'a', 't', 'i', 'o', 'n',
          '.', 'b', 'i', 'n'],
         ['a', 'p', 'p', 'l', 'i', 'c', 'a', 't', 'i', 'o', 'n',
          '.', 'd', 'a', 't']], isAppDat f)))
    ∧ ∀ binFile datFile,
        parse_zip_fallback
          [['a', 'p', 'p', '.', 'b', 'i', 'n'],
           ['a', 'p', 'p', 'l', 'i', 'c', 'a', 't', 'i', 'o', 'n',
            '.', 'b', 'i', 'n'],
           ['a', 'p', 'p', 'l', 'i', 'c', 'a', 't', 'i', 'o', 'n',
            '.', 'd', 'a', 't']] = some (binFile, datFile) →
          (isAppBin binFile
            ∧ ∃ pre suf,
                [['a', 'p', 'p', '.', 'b', 'i', 'n'],
                 ['a', 'p', 'p', 'l', 'i', 'c', 'a', 't', 'i', 'o', 'n',
                  '.', 'b', 'i', 'n'],
                 ['a', 'p', 'p', 'l', 'i', 'c', 'a', 't', 'i', 'o', 'n',
                  '.', 'd', 'a', 't']] = pre ++ binFile :: suf
                ∧ ∀ f ∈ pre, isAppBin f = false)
          ∧ (isAppDat datFile
            ∧ ∃ pre suf,
                [['a', 'p', 'p', '.', 'b', 'i', 'n'],
                 ['a', 'p', 'p', 'l', 'i', 'c', 'a', 't', 'i', 'o', 'n',
                  '.', 'b', 'i', 'n'],
                 ['a', 'p', 'p', 'l', 'i', 'c', 'a', 't', 'i', 'o', 'n',
                  '.', 'd', 'a', 't']] = pre ++ datFile :: suf
                ∧ ∀ f ∈ pre, isAppDat f = false) :=
  parse_zip_fallback_first_match
    [['a', 'p', 'p', '.', 'b', 'i', 'n'],
     ['a', 'p', 'p', 'l', 'i', 'c', 'a', 't', 'i', 'o', 'n',
      '.', 'b', 'i', 'n'],
     ['a', 'p', 'p', 'l', 'i', 'c', 'a', 't', 'i', 'o', 'n',
      '.', 'd', 'a', 't']]

/-- Claim C8 counterexample: the scan contains an entry matching the
query only by advertised name, followed by an entry whose address matches
the query exactly; the loop returns the earlier name-match, not the
address-match — criterion priority is per entry in scan order, not
global. -/
theorem find_device_scan_order_cex :
    find_device_loop ['T', 'G', 'T'] none
        [(⟨['X', 'X'], some ['T', 'G', 'T']⟩, ⟨none, []⟩),
         (⟨['T', 'G', 'T'], none⟩, ⟨none, []⟩)]
      = some ⟨['X', 'X'], some ['T', 'G', 'T']⟩
    ∧ toUpperStr (⟨['T', 'G', 'T'], none⟩ : BLEDevice).address
        = toUpperStr ['T', 'G', 'T']
    ∧ (⟨['X', 'X'], some ['T', 'G', 'T']⟩ : BLEDevice)
        ≠ ⟨['T', 'G', 'T'], none⟩ := by
  refine ⟨by decide, by decide, by decide⟩

/-- Claim C8 (amended): the loop returns the first scan entry (in
discovery order) that matches any of the three criteria; for a single
entry the criteria are tried address, then name, then service UUID, but
no criterion has global priority across entries. -/
theorem find_device_loop_eq_find (query : List Char)
    (serviceUuid : Option (List Char))
    (entries : List (BLEDevice × AdvertisementData)) :
    find_device_loop query serviceUuid entries
      = (entries.find? (deviceEntryMatches query serviceUuid)).map
          Prod.fst := by
  induction entries with
  | nil => rfl
  | cons e rest ih =>
    rcases e with ⟨d, adv⟩
    simp only [find_device_loop, List.find?_cons, deviceEntryMatches]
    cases h1 : toUpperStr d.address == toUpperStr query with
    | true => simp [h1]
    | false =>
      cases h2 : advName d adv == query with
      | true => simp [h1, h2]
      | false =>
        cases h3 : uuidMatch serviceUuid adv with
        | true => simp [h1, h2, h3]
        | false => simp [h1, h2, h3, ih]

/-- Claim C9: `jump_to_bootloader` returns normally for every combination
of transport outcomes — connect failure, notify failure, write failure
and disconnect failure are all swallowed; no exception reaches the
caller, so a failed jump and a successful one are indistinguishable at
this interface. -/
theorem jump_to_bootloader_total (t : JumpTransport) :
    jump_to_bootloader t = PyResult.ok () := by
  rcases t with ⟨c, n, w, d⟩
  cases c <;> cases n <;> cases w <;> cases d <;> rfl

theorem drain_response_queue_eq_nil (q : List (Nat × Nat)) :
    drain_response_queue q = [] := by
  induction q with
  | nil => rfl
  | cons x rest ih => simpa [drain_response_queue] using ih

/-- Claim C10: at the start of every attempt the response queue is
drained to empty before the first control-point write, so the queue seen
by any later response wait of that attempt consists exactly of the
frames that arrived after the drain — a frame left over from an earlier
attempt (and not re-sent) can never satisfy a later wait. -/
theorem response_queue_isolation (leftover arrivals : List (Nat × Nat)) :
    drain_response_queue leftover = []
    ∧ queue_at_first_command leftover arrivals = arrivals
    ∧ ∀ f, f ∈ leftover → f ∉ arrivals →
        f ∉ queue_at_first_command leftover arrivals := by
  refine ⟨drain_response_queue_eq_nil leftover, ?_, ?_⟩
  · unfold queue_at_first_command
    rw [drain_response_queue_eq_nil leftover, List.nil_append]
  · intro f _ hnot
    unfold queue_at_first_command
    rw [drain_response_queue_eq_nil leftover, List.nil_append]
    exact hnot

theorem response_queue_isolation_witness :
    drain_response_queue [(16, 1), (2, 3)] = []
    ∧ queue_at_first_command [(16, 1), (2, 3)] [(1, 1)] = [(1, 1)]
    ∧ ∀ f, f ∈ [((16 : Nat), (1 : Nat)), (2, 3)] → f ∉ [((1 : Nat), (1 : Nat))] →
        f ∉ queue_at_first_command [(16, 1), (2, 3)] [(1, 1)] :=
  response_queue_isolation [(16, 1), (2, 3)] [(1, 1)]

end DfuLib
